import Mathlib

/-!
Verification development for the brokers-mcp repository.

Part 1 embeds the order-simulation subsystem
(`common_lib/alpaca_helpers/simulation/simulation_trading_client.py` together
with the schema of `simulation_trading_db.py`).

Part 2 embeds the bar-retrieval pipeline
(`market_data_service/src/alpaca_api/market_data.py`).

Conventions of the embedding:
* prices and quantities are rationals (`ℚ`), optional values are `Option`;
* Python truthiness on an optional number (`if x:`) is `none`/zero ↦ false;
* order ids (uuid4 in the source) are modelled by a fresh-id counter
  `nextId` carried in the store, so freshness is explicit;
* timestamps (`datetime.utcnow()` / server `now()`) are a `Nat` parameter
  `now` passed to each operation;
* each client operation returns the response (or the raised error) together
  with the final state of the orders table; a raised error rolls the
  enclosing session back, so the paired table is the unchanged one;
* the `orders.entry_price` column is declared `nullable=False` in
  `simulation_trading_db.py`, so committing a row whose `entry_price` is
  `none` violates the NOT NULL constraint and the commit fails; this is
  modelled by `SimError.notNullViolation`.
-/

namespace BrokersMcp

/-- Errors raised by the simulation trading client or its database layer. -/
inductive SimError where
  | notFound
  | alreadyCanceled
  | multipleResults
  | notNullViolation
  | unsupportedClose
  | attributeError
deriving DecidableEq, Repr

/-- A row of the `orders` table (`simulation_trading_db.py`). -/
structure Order where
  id : Nat
  instrument : String
  quantity : ℚ
  side : String
  entry_price : Option ℚ
  take_profit_price : Option ℚ
  stop_loss_price : Option ℚ
  order_type : String
  order_class : String
  time_in_force : String
  status : String
  created_timestamp : Nat
  updated_timestamp : Nat
deriving DecidableEq, Repr

/-- The orders table plus the fresh-id source (uuid4 in the source). -/
structure OrderStore where
  orders : List Order
  nextId : Nat
deriving DecidableEq, Repr

/-- An alpaca `OrderRequest` as consumed by `_create_order`: `type` is
`order_data.type.value`, `take_profit` stands for
`order_data.take_profit.limit_price` when a take-profit leg is present, and
`stop_loss` for `order_data.stop_loss.stop_price`. -/
structure OrderRequest where
  symbol : String
  qty : Option ℚ
  side : String
  type : String
  time_in_force : String
  limit_price : Option ℚ
  take_profit : Option ℚ
  stop_loss : Option ℚ
  order_class : Option String
deriving DecidableEq, Repr

/-- An alpaca `ReplaceOrderRequest`: every field optional. -/
structure ReplaceOrderRequest where
  qty : Option ℚ
  time_in_force : Option String
  limit_price : Option ℚ
  stop_price : Option ℚ
deriving DecidableEq, Repr

/-- An alpaca `ClosePositionRequest`; `percentage` is an optional string. -/
structure ClosePositionRequest where
  percentage : Option String
deriving DecidableEq, Repr

/-- Python truthiness of an optional number: `None` and `0` are falsy. -/
def optTruthy (q : Option ℚ) : Bool :=
  match q with
  | none => false
  | some x => x ≠ 0

/-- Python falsiness of an optional string: `None` and `""` are falsy. -/
def strFalsy (q : Option String) : Bool :=
  match q with
  | none => true
  | some x => x = ""

/-- Response of `submit_order` (`simulation_db_responses.py`). -/
structure SubmitOrderResponse where
  status : String
  id : Nat
deriving DecidableEq, Repr

/-- Response of `cancel_order_by_id`. -/
structure CancelOrderResponse where
  status : String
  id : Nat
deriving DecidableEq, Repr

/-- Response of `replace_order_by_id`. -/
structure ModifyOrderResponse where
  status : String
  id : Nat
  qty : Option ℚ
  limit_price : Option ℚ
  stop_price : Option ℚ
deriving DecidableEq, Repr

/-- The row built by `SimulationTradingClient._create_order` before the
commit: `entry_price` is the limit price exactly when the order type is
`"limit"` and the limit price is truthy, the status is `"new"`, and both
timestamps take the commit time. -/
def createOrderRow (req : OrderRequest) (id : Nat) (now : Nat) : Order :=
  { id := id
    instrument := req.symbol
    quantity := req.qty.getD 0
    side := req.side
    entry_price :=
      if req.type = "limit" ∧ optTruthy req.limit_price then req.limit_price else none
    take_profit_price := req.take_profit
    stop_loss_price := req.stop_loss
    order_type := req.type
    order_class := req.order_class.getD "simple"
    time_in_force := req.time_in_force
    status := "new"
    created_timestamp := now
    updated_timestamp := now }

/-- Embeds `_create_order`: build the row, `session.add`, `session.commit`.  The
commit fails with a NOT NULL violation when `entry_price` is `none`, since
the `entry_price` column is declared `nullable=False`; in that case the
session is rolled back and the table is unchanged. -/
def dbCreateOrder (s : OrderStore) (req : OrderRequest) (now : Nat) :
    Except SimError Order × OrderStore :=
  let row := createOrderRow req s.nextId now
  if row.entry_price = none then
    (.error .notNullViolation, s)
  else
    (.ok row, { orders := s.orders ++ [row], nextId := s.nextId + 1 })

/-- Embeds `scalar_one_or_none` over `select(Order).where(Order.id == oid)`. -/
def scalarOneOrNone (s : OrderStore) (oid : Nat) : Except SimError (Option Order) :=
  match s.orders.filter (fun o => o.id = oid) with
  | [] => .ok none
  | [o] => .ok (some o)
  | _ => .error .multipleResults

/-- Embeds `_get_order_by_id`: fetch by id, `ValueError` (here `notFound`) when the
id is absent. -/
def getOrderById (s : OrderStore) (oid : Nat) : Except SimError Order :=
  match scalarOneOrNone s oid with
  | .error e => .error e
  | .ok none => .error .notFound
  | .ok (some o) => .ok o

/-- Embeds `submit_order`: create and persist a new order. -/
def submit_order (s : OrderStore) (req : OrderRequest) (now : Nat) :
    Except SimError SubmitOrderResponse × OrderStore :=
  match dbCreateOrder s req now with
  | (.error e, s') => (.error e, s')
  | (.ok row, s') => (.ok { status := row.status, id := row.id }, s')

/-- Embeds `cancel_order_by_id`: fetch, set status `"canceled"`, stamp
`updated_timestamp`, commit.  There is no guard on the current status. -/
def cancel_order_by_id (s : OrderStore) (oid : Nat) (now : Nat) :
    Except SimError CancelOrderResponse × OrderStore :=
  match getOrderById s oid with
  | .error e => (.error e, s)
  | .ok _ =>
    (.ok { status := "canceled", id := oid },
     { s with orders := s.orders.map (fun o =>
        if o.id = oid then { o with status := "canceled", updated_timestamp := now } else o) })

/-- Embeds `_prepare_new_order_request`: the limit-order request built from the
existing row and the replacement parameters.  `qty`, `time_in_force` and
`limit_price` fall back to the existing row under an `is not None` check;
the take-profit leg is inherited from the existing row under truthiness;
the stop-loss leg comes only from the replacement request, under
truthiness. -/
def prepareNewOrderRequest (ex : Order) (nd : ReplaceOrderRequest) : OrderRequest :=
  { symbol := ex.instrument
    qty := some (match nd.qty with | some q => q | none => ex.quantity)
    side := ex.side
    type := ex.order_type
    time_in_force := match nd.time_in_force with | some t => t | none => ex.time_in_force
    limit_price := match nd.limit_price with | some p => some p | none => ex.entry_price
    take_profit := if optTruthy ex.take_profit_price then ex.take_profit_price else none
    stop_loss := if optTruthy nd.stop_price then nd.stop_price else none
    order_class := some ex.order_class }

/-- Embeds `replace_order_by_id`: fetch; fail when the existing order is already
canceled; otherwise mark it canceled in the session, build the new request
and create the new order.  The single commit inside `_create_order`
persists both the cancelation and the new row; when that commit fails, the
whole session rolls back and the table is unchanged. -/
def replace_order_by_id (s : OrderStore) (oid : Nat) (nd : ReplaceOrderRequest)
    (now : Nat) : Except SimError ModifyOrderResponse × OrderStore :=
  match getOrderById s oid with
  | .error e => (.error e, s)
  | .ok ex =>
    if ex.status = "canceled" then
      (.error .alreadyCanceled, s)
    else
      let req := prepareNewOrderRequest ex nd
      let row := createOrderRow req s.nextId now
      if row.entry_price = none then
        (.error .notNullViolation, s)
      else
        (.ok { status := row.status, id := row.id, qty := some row.quantity
               limit_price := if optTruthy row.entry_price then row.entry_price else none
               stop_price := if optTruthy row.stop_loss_price then row.stop_loss_price else none },
         { orders := (s.orders.map (fun o =>
             if o.id = oid then { o with status := "canceled", updated_timestamp := now } else o))
             ++ [row],
           nextId := s.nextId + 1 })

/-- Embeds `close_position`: dereferencing `close_options.percentage` on the `None`
default raises `AttributeError` before any other check; a percentage other
than exactly `"100"` (falsy included) raises the unsupported-close error;
otherwise every row with status `"new"` and matching instrument is bulk
updated to `"filled"` with a fresh `updated_timestamp`. -/
def close_position (s : OrderStore) (symbol : String)
    (close_options : Option ClosePositionRequest) (now : Nat) :
    Except SimError Unit × OrderStore :=
  match close_options with
  | none => (.error .attributeError, s)
  | some co =>
    if strFalsy co.percentage = true ∨ co.percentage ≠ some "100" then
      (.error .unsupportedClose, s)
    else
      (.ok (),
       { s with orders := s.orders.map (fun o =>
          if o.status = "new" ∧ o.instrument = symbol then
            { o with status := "filled", updated_timestamp := now }
          else o) })

/-!
Part 2: the bar-retrieval pipeline of
`market_data_service/src/alpaca_api/market_data.py`.

The upstream data source (`stock_client.get_stock_bars` over the window
`[bars_back_to_datetime(unit, bar_size, adjusted_bars_back), now]`) is
abstracted as a function `fetch` from the adjusted bar count to the list of
row timestamps of the returned frame, already converted to US/Eastern;
indicator computation (`add_indicators_to_bars_df`) adds columns but no
rows, so it does not appear in the row-level model.  The recursion of
`get_alpaca_bars` into itself is made total with a fuel argument whose
exhaustion is the distinguished outcome `diverge`.
-/

/-- The five bar units accepted by the pipeline. -/
inductive BarUnit where
  | minute
  | hour
  | daily
  | weekly
  | monthly
deriving DecidableEq, Repr

/-- A dataframe row timestamp after conversion to US/Eastern: day of week
(0 = Monday .. 6 = Sunday), hour and minute. -/
structure EtTimestamp where
  dow : Nat
  hour : Nat
  minute : Nat
deriving DecidableEq, Repr

/-- The row mask of the outside-hours filter: weekday, and 9:30 or later,
or 10:00–15:59, or exactly 16:00. -/
def inRegularSession (t : EtTimestamp) : Bool :=
  decide (t.dow < 5) &&
    ((decide (t.hour = 9) && decide (30 ≤ t.minute)) ||
     (decide (9 < t.hour) && decide (t.hour < 16)) ||
     (decide (t.hour = 16) && decide (t.minute = 0)))

/-- Embeds `unit.upper() in ["MINUTE", "HOUR"]`. -/
def isIntraday (u : BarUnit) : Bool :=
  u = BarUnit.minute ∨ u = BarUnit.hour

/-- Embeds `int(bars_back * 3.7)`: truncating multiplication by 3.7. -/
def int37 (b : Nat) : Nat := 37 * b / 10

/-- The outside-hours inflation of the fetch window: 3.7× truncated for
minute bars, 4× for hour bars. -/
def inflateBarsBack (u : BarUnit) (b : Nat) : Nat :=
  if u = BarUnit.minute then int37 b else b * 4

/-- Embeds `default_bars_back` (`market_data.py` lines 74–91): the elif chain over
`unit` and `bar_size`.  A minute request with `bar_size ≥ 30` matches no
branch and falls through to the final `raise ValueError`. -/
def default_bars_back (unit : BarUnit) (bar_size : Nat) : Except String Nat :=
  if unit = BarUnit.minute ∧ bar_size < 5 then .ok (120 / bar_size)
  else if unit = BarUnit.minute ∧ bar_size < 15 then .ok (60 * 7 / bar_size)
  else if unit = BarUnit.minute ∧ bar_size < 30 then .ok (60 * 13 / bar_size)
  else if unit = BarUnit.hour then .ok (5 * 24 / bar_size)
  else if unit = BarUnit.daily then .ok (30 / bar_size)
  else if unit = BarUnit.weekly then .ok (26 / bar_size)
  else if unit = BarUnit.monthly then .ok (12 / bar_size)
  else .error "Unknown unit"

/-- Outcome of a `get_alpaca_bars` call: the returned rows together with
whether the under-fill warning was logged, a raised error, or exhaustion of
the recursion fuel. -/
inductive BarsOutcome where
  | rows (data : List EtTimestamp) (warned : Bool)
  | error (msg : String)
  | diverge
deriving DecidableEq, Repr

/-- The final truncation step: `iloc[-original_bars_back:]` applied only
when truncation is requested and at least that many rows exist.  In Python
`iloc[-0:]` keeps every row. -/
def truncateRows (truncate : Bool) (orig : Nat) (rows : List EtTimestamp) :
    List EtTimestamp :=
  if truncate = true ∧ orig ≤ rows.length then
    if orig = 0 then rows else rows.drop (rows.length - orig)
  else rows

/-- Embeds `get_alpaca_bars` (`market_data.py` lines 125–240).  `indicators` is the
list of warm-up lengths `indicator_min_bars_back i` of the requested
indicator specs (empty list for the empty string); the other arguments
mirror the source.  Step by step: resolve `original_bars_back` (the
`bars_back or default_bars_back(...)` idiom), add the indicator warm-up,
inflate the window for outside-hours filtering, fetch, filter to the
regular session, then either recurse with `original_bars_back * 10` when
under-filled and the multiplier guard holds, or return (with the warning
flag when under-filled), truncating last. -/
def get_alpaca_bars (fetch : Nat → List EtTimestamp) :
    Nat → BarUnit → Nat → Nat → List Nat → Bool → Bool → BarsOutcome
  | 0, _, _, _, _, _, _ => .diverge
  | fuel + 1, unit, bars_back, bar_size, indicators, truncate_bars, include_outside_hours =>
    match (if bars_back = 0 then default_bars_back unit bar_size else .ok bars_back) with
    | .error e => .error e
    | .ok original_bars_back =>
      let bars_back' :=
        if indicators ≠ [] then indicators.foldl Nat.max 0 + bars_back
        else original_bars_back
      let filterHours := !include_outside_hours && isIntraday unit
      let adjusted_bars_back :=
        if filterHours = true then inflateBarsBack unit bars_back' else bars_back'
      let raw := fetch adjusted_bars_back
      let rows := if filterHours = true then raw.filter inRegularSession else raw
      if filterHours = true ∧ rows.length < original_bars_back then
        if adjusted_bars_back ≤ bars_back' * 4 then
          get_alpaca_bars fetch fuel unit (original_bars_back * 10) bar_size indicators
            truncate_bars include_outside_hours
        else
          .rows (truncateRows truncate_bars original_bars_back rows) true
      else
        .rows (truncateRows truncate_bars original_bars_back rows) false

/-!
Concrete fixtures used by witnesses and counterexamples.
-/

/-- The empty orders table. -/
def store0 : OrderStore := { orders := [], nextId := 0 }

/-- A limit order request with a nonzero limit price. -/
def reqLimit5 : OrderRequest :=
  { symbol := "AAPL", qty := some 1, side := "buy", type := "limit"
    time_in_force := "day", limit_price := some 5, take_profit := none
    stop_loss := none, order_class := none }

/-- A limit order request whose limit price is exactly zero (falsy in
Python). -/
def reqLimit0 : OrderRequest :=
  { reqLimit5 with limit_price := some 0 }

/-- A market order request (no limit price). -/
def reqMarket : OrderRequest :=
  { reqLimit5 with type := "market", limit_price := none }

/-- The persisted row of `reqLimit5` with id 0 at time 7. -/
def ordLimit : Order := createOrderRow reqLimit5 0 7

/-- A store holding one live limit order. -/
def stOne : OrderStore := { orders := [ordLimit], nextId := 1 }

/-- Store `stOne` after `cancel_order_by_id 0` at time 9. -/
def stCanceled : OrderStore := (cancel_order_by_id stOne 0 9).2

/-- The canceled row held by `stCanceled`. -/
def ordCanceled : Order := { ordLimit with status := "canceled", updated_timestamp := 9 }

/-- A store holding one live limit order (id 1) and one canceled order
(id 0). -/
def stTwo : OrderStore :=
  { orders := [ordCanceled, { ordLimit with id := 1 }], nextId := 2 }

/-!
Claim theorems for the order-simulation subsystem.
-/

/-- C10: calling `close_position` with `close_options = None` (the declared
default) raises `AttributeError` from dereferencing
`close_options.percentage`, before the unsupported-partial-close domain
check and before any database access, and the order store is unchanged. -/
theorem close_position_none_attribute_error (s : OrderStore) (symbol : String) (now : Nat) :
    close_position s symbol none now = (.error .attributeError, s) ∧
    SimError.attributeError ≠ SimError.unsupportedClose := by
  exact ⟨rfl, by decide⟩

/-- C6: `close_position` with a percentage other than exactly the string
`"100"` fails with the unsupported-close error regardless of the store
contents, and no order row is modified. -/
theorem close_position_non_100_fails (s : OrderStore) (symbol : String)
    (co : ClosePositionRequest) (now : Nat) (h : co.percentage ≠ some "100") :
    close_position s symbol (some co) now = (.error .unsupportedClose, s) := by
  unfold close_position
  dsimp only
  rw [if_pos (Or.inr h)]

/-- Witness for C6 at a concrete 50% close request over a nonempty store. -/
theorem close_position_non_100_fails_witness :
    close_position stOne "AAPL" (some { percentage := some "50" }) 3 =
      (.error .unsupportedClose, stOne) :=
  close_position_non_100_fails stOne "AAPL" { percentage := some "50" } 3 (by decide)

/-- C9: `cancel_order_by_id` on an order whose status is already
`"canceled"` succeeds without error, re-setting the status to `"canceled"`
and stamping `updated_timestamp`: there is no guard against terminal
status, unlike replace. -/
theorem cancel_canceled_succeeds (s : OrderStore) (oid : Nat) (now : Nat) (ex : Order)
    (hfind : getOrderById s oid = .ok ex) (_hstat : ex.status = "canceled") :
    cancel_order_by_id s oid now =
      (.ok { status := "canceled", id := oid },
       { s with orders := s.orders.map (fun o =>
           if o.id = oid then { o with status := "canceled", updated_timestamp := now } else o) }) := by
  unfold cancel_order_by_id
  rw [hfind]

/-- Witness for C9: cancel an already-canceled order at time 11. -/
theorem cancel_canceled_succeeds_witness :
    cancel_order_by_id stCanceled 0 11 =
      (.ok { status := "canceled", id := 0 },
       { stCanceled with orders := stCanceled.orders.map (fun o =>
           if o.id = 0 then { o with status := "canceled", updated_timestamp := 11 } else o) }) :=
  cancel_canceled_succeeds stCanceled 0 11 ordCanceled (by rfl) (by rfl)

/-- C4: `replace_order_by_id` on an order whose status is `"canceled"`
fails with the already-canceled domain error; no new order row is created
and the store is unchanged. -/
theorem replace_canceled_fails (s : OrderStore) (oid : Nat) (nd : ReplaceOrderRequest)
    (now : Nat) (ex : Order) (hfind : getOrderById s oid = .ok ex)
    (hstat : ex.status = "canceled") :
    replace_order_by_id s oid nd now = (.error .alreadyCanceled, s) := by
  unfold replace_order_by_id
  rw [hfind]
  exact if_pos hstat

/-- C5: `close_position` with percentage `"100"` succeeds and performs the
bulk update: every order with status `"new"` and matching instrument
becomes `"filled"` with `updated_timestamp` stamped to the current time,
and every other order (canceled, filled, or of a non-matching instrument)
is unchanged in all fields.  The rows are compared positionally via
`List.Forall₂`. -/
theorem close_position_100_fills (s : OrderStore) (symbol : String) (now : Nat) :
    (close_position s symbol (some { percentage := some "100" }) now).1 = .ok () ∧
    (close_position s symbol (some { percentage := some "100" }) now).2.nextId = s.nextId ∧
    List.Forall₂ (fun o o' =>
        (o.status = "new" ∧ o.instrument = symbol →
          o' = { o with status := "filled", updated_timestamp := now }) ∧
        (¬(o.status = "new" ∧ o.instrument = symbol) → o' = o))
      s.orders (close_position s symbol (some { percentage := some "100" }) now).2.orders := by
  have hcond : ¬(strFalsy (some "100") = true ∨ (some "100" : Option String) ≠ some "100") := by
    decide
  unfold close_position
  dsimp only
  rw [if_neg hcond]
  refine ⟨rfl, rfl, ?_⟩
  rw [List.forall₂_map_right_iff, List.forall₂_same]
  intro o _
  constructor
  · intro hm
    rw [if_pos hm]
  · intro hm
    rw [if_neg hm]

/-- Witness for C5 over a store holding a matching new order and a canceled
order: the new one fills, the canceled one is untouched. -/
theorem close_position_100_fills_witness :
    (close_position stTwo "AAPL" (some { percentage := some "100" }) 12).1 = .ok () ∧
    (close_position stTwo "AAPL" (some { percentage := some "100" }) 12).2.nextId = stTwo.nextId ∧
    List.Forall₂ (fun o o' =>
        (o.status = "new" ∧ o.instrument = "AAPL" →
          o' = { o with status := "filled", updated_timestamp := 12 }) ∧
        (¬(o.status = "new" ∧ o.instrument = "AAPL") → o' = o))
      stTwo.orders (close_position stTwo "AAPL" (some { percentage := some "100" }) 12).2.orders :=
  close_position_100_fills stTwo "AAPL" 12

/-- Witness for C4: cancel the order of `stOne`, then try to replace it. -/
theorem replace_canceled_fails_witness :
    replace_order_by_id stCanceled 0
      { qty := none, time_in_force := none, limit_price := some 6, stop_price := none } 10 =
      (.error .alreadyCanceled, stCanceled) :=
  replace_canceled_fails stCanceled 0
    { qty := none, time_in_force := none, limit_price := some 6, stop_price := none } 10
    ordCanceled (by rfl) (by rfl)

/-- Counterexample to C2 as stated: a LIMIT order specification whose given
limit price is `0` is persisted with a null `entry_price` (Python
truthiness discards the zero), and the commit then fails the NOT NULL
constraint on `entry_price`, so the row is not persisted at all. -/
theorem submit_order_limit_zero_counterexample :
    (createOrderRow reqLimit0 0 7).entry_price = none ∧
    (createOrderRow reqLimit0 0 7).entry_price ≠ reqLimit0.limit_price ∧
    submit_order store0 reqLimit0 7 = (.error .notNullViolation, store0) := by
  refine ⟨rfl, by decide, rfl⟩

/-- C2 (amended): the persisted `entry_price` equals the specification's
limit price when the order type is LIMIT and the limit price is non-null
and nonzero, and is null for every other specification (any other order
type, or a missing or zero limit price); the row is successfully persisted
exactly in the first case, while a null `entry_price` violates the NOT
NULL column constraint and nothing is persisted. -/
theorem submit_order_entry_price (s : OrderStore) (req : OrderRequest) (now : Nat) :
    (∀ p : ℚ, req.type = "limit" → req.limit_price = some p → p ≠ 0 →
      (createOrderRow req s.nextId now).entry_price = some p ∧
      submit_order s req now =
        (.ok { status := "new", id := s.nextId },
         { orders := s.orders ++ [createOrderRow req s.nextId now], nextId := s.nextId + 1 })) ∧
    (req.type ≠ "limit" ∨ optTruthy req.limit_price = false →
      (createOrderRow req s.nextId now).entry_price = none ∧
      submit_order s req now = (.error .notNullViolation, s)) := by
  constructor
  · intro p htype hlp hp
    have htr : optTruthy req.limit_price = true := by
      rw [hlp]
      exact decide_eq_true_iff.mpr hp
    have hentry : (createOrderRow req s.nextId now).entry_price = some p := by
      unfold createOrderRow
      dsimp only
      rw [if_pos ⟨htype, htr⟩, hlp]
    refine ⟨hentry, ?_⟩
    unfold submit_order dbCreateOrder
    dsimp only
    rw [hentry]
    simp only [reduceCtorEq, if_false]
    have hstat : (createOrderRow req s.nextId now).status = "new" := rfl
    have hid : (createOrderRow req s.nextId now).id = s.nextId := rfl
    rw [hstat, hid]
  · intro hcase
    have hentry : (createOrderRow req s.nextId now).entry_price = none := by
      unfold createOrderRow
      dsimp only
      rw [if_neg]
      rintro ⟨htype, htr⟩
      rcases hcase with hc | hc
      · exact hc htype
      · rw [hc] at htr
        exact Bool.false_ne_true htr
    refine ⟨hentry, ?_⟩
    unfold submit_order dbCreateOrder
    dsimp only
    rw [hentry]
    simp

/-- Witness for C2 (amended): a limit order at price 5 is persisted with
`entry_price = 5`; a market order is rejected by the NOT NULL constraint
and the store stays empty. -/
theorem submit_order_entry_price_witness :
    ((createOrderRow reqLimit5 store0.nextId 7).entry_price = some 5 ∧
      submit_order store0 reqLimit5 7 =
        (.ok { status := "new", id := store0.nextId },
         { orders := store0.orders ++ [createOrderRow reqLimit5 store0.nextId 7],
           nextId := store0.nextId + 1 })) ∧
    ((createOrderRow reqMarket store0.nextId 7).entry_price = none ∧
      submit_order store0 reqMarket 7 = (.error .notNullViolation, store0)) :=
  ⟨(submit_order_entry_price store0 reqLimit5 7).1 5 rfl rfl (by norm_num),
   (submit_order_entry_price store0 reqMarket 7).2 (Or.inl (by decide))⟩

/-!
Claim theorems for the bar-retrieval pipeline.
-/

/-- Counterexample to C8 as stated: a bar request with `bars_back = 0`,
unit Minute and `bar_size = 30` (a valid combination: `get_timeframe`
accepts minute sizes up to 59) raises the `Unknown unit` ValueError from
`default_bars_back`, because a minute request with `bar_size ≥ 30` matches
no branch of the elif chain. -/
theorem default_bars_back_minute30_counterexample :
    default_bars_back BarUnit.minute 30 = .error "Unknown unit" ∧
    get_alpaca_bars (fun _ => []) 1 BarUnit.minute 0 30 [] true false =
      .error "Unknown unit" := by
  exact ⟨rfl, rfl⟩

/-- C8 (amended): for every `bar_size ≥ 1`, `default_bars_back` is defined
for units Hour, Daily, Weekly and Monthly, and for unit Minute it is
defined exactly when `bar_size < 30`; a Minute request with
`bar_size ≥ 30` falls through the elif chain and raises. -/
theorem default_bars_back_domain (b : Nat) (hb : 1 ≤ b) :
    ((∃ n, default_bars_back BarUnit.minute b = .ok n) ↔ b < 30) ∧
    (∃ n, default_bars_back BarUnit.hour b = .ok n) ∧
    (∃ n, default_bars_back BarUnit.daily b = .ok n) ∧
    (∃ n, default_bars_back BarUnit.weekly b = .ok n) ∧
    (∃ n, default_bars_back BarUnit.monthly b = .ok n) := by
  unfold default_bars_back
  refine ⟨⟨?_, ?_⟩, ?_, ?_, ?_, ?_⟩
  · intro ⟨n, hn⟩
    by_contra hge
    simp only [not_lt] at hge
    have h5 : ¬(BarUnit.minute = BarUnit.minute ∧ b < 5) := by omega
    have h15 : ¬(BarUnit.minute = BarUnit.minute ∧ b < 15) := by omega
    have h30 : ¬(BarUnit.minute = BarUnit.minute ∧ b < 30) := by omega
    rw [if_neg h5, if_neg h15, if_neg h30] at hn
    simp at hn
  · intro hlt
    by_cases h5 : b < 5
    · exact ⟨120 / b, by rw [if_pos ⟨rfl, h5⟩]⟩
    · by_cases h15 : b < 15
      · refine ⟨60 * 7 / b, ?_⟩
        rw [if_neg (by omega : ¬(BarUnit.minute = BarUnit.minute ∧ b < 5)),
          if_pos ⟨rfl, h15⟩]
      · refine ⟨60 * 13 / b, ?_⟩
        rw [if_neg (by omega : ¬(BarUnit.minute = BarUnit.minute ∧ b < 5)),
          if_neg (by omega : ¬(BarUnit.minute = BarUnit.minute ∧ b < 15)),
          if_pos ⟨rfl, hlt⟩]
  · exact ⟨5 * 24 / b, by simp⟩
  · exact ⟨30 / b, by simp⟩
  · exact ⟨26 / b, by simp⟩
  · exact ⟨12 / b, by simp⟩

/-- Witness for C8 (amended) at `bar_size = 1`: every unit has a default. -/
theorem default_bars_back_domain_witness :
    ((∃ n, default_bars_back BarUnit.minute 1 = .ok n) ↔ 1 < 30) ∧
    (∃ n, default_bars_back BarUnit.hour 1 = .ok n) ∧
    (∃ n, default_bars_back BarUnit.daily 1 = .ok n) ∧
    (∃ n, default_bars_back BarUnit.weekly 1 = .ok n) ∧
    (∃ n, default_bars_back BarUnit.monthly 1 = .ok n) :=
  default_bars_back_domain 1 (by norm_num)

/-- Truncation keeps a subset of the rows. -/
theorem truncateRows_subset (tr : Bool) (orig : Nat) (rows : List EtTimestamp) :
    ∀ t ∈ truncateRows tr orig rows, t ∈ rows := by
  intro t ht
  unfold truncateRows at ht
  split at ht
  · split at ht
    · exact ht
    · exact List.mem_of_mem_drop ht
  · exact ht

/-- A timestamp with a valid minute-of-hour that passes the session mask
lies on a weekday between 09:30 and 16:00 inclusive (measured in minutes
after midnight). -/
theorem inRegularSession_sound (t : EtTimestamp) (hm : t.minute < 60)
    (h : inRegularSession t = true) :
    t.dow < 5 ∧ 570 ≤ 60 * t.hour + t.minute ∧ 60 * t.hour + t.minute ≤ 960 := by
  unfold inRegularSession at h
  simp only [Bool.and_eq_true, Bool.or_eq_true, decide_eq_true_eq] at h
  obtain ⟨hdow, hsess⟩ := h
  refine ⟨hdow, ?_, ?_⟩ <;> omega

/-- C7: a `get_alpaca_bars` request with unit Minute and
`include_outside_hours = false` only ever returns rows whose timestamps
fall on a weekday between 09:30 and 16:00 inclusive, whatever the data
source returns and through any number of retries; the hypothesis `hfetch`
says the source produces genuine clock timestamps (minute-of-hour below
60). -/
theorem get_alpaca_bars_session_only
    (fetch : Nat → List EtTimestamp)
    (hfetch : ∀ n, ∀ t ∈ fetch n, t.minute < 60)
    (fuel bars_back bar_size : Nat) (indicators : List Nat) (truncate_bars : Bool)
    (rows : List EtTimestamp) (warned : Bool)
    (h : get_alpaca_bars fetch fuel BarUnit.minute bars_back bar_size indicators
          truncate_bars false = .rows rows warned) :
    ∀ t ∈ rows, t.dow < 5 ∧ 570 ≤ 60 * t.hour + t.minute ∧ 60 * t.hour + t.minute ≤ 960 := by
  induction fuel generalizing bars_back rows warned with
  | zero =>
    exact absurd h (by simp [get_alpaca_bars])
  | succ n ih =>
    rw [get_alpaca_bars] at h
    set scrut := (if bars_back = 0 then default_bars_back BarUnit.minute bar_size
      else .ok bars_back) with hscrut
    clear_value scrut
    match scrut with
    | .error e => exact absurd h (by simp)
    | .ok orig =>
      simp only [show (!false && isIntraday BarUnit.minute) = true from rfl,
        eq_self_iff_true, true_and, if_true] at h
      repeat' split at h
      all_goals
        first
        | exact ih _ _ _ h
        | · injection h with hrows hwarn
            subst hrows
            intro t ht
            have hmem := truncateRows_subset _ _ _ t ht
            rw [List.mem_filter] at hmem
            exact inRegularSession_sound t (hfetch _ t hmem.1) hmem.2

/-- A data source returning one in-session Monday 10:00 bar. -/
def fetchOneBar : Nat → List EtTimestamp := fun _ => [{ dow := 0, hour := 10, minute := 0 }]

/-- Witness for C7: a concrete minute request returns one row, and that
row's timestamp lies in the regular session. -/
theorem get_alpaca_bars_session_only_witness :
    ({ dow := 0, hour := 10, minute := 0 } : EtTimestamp).dow < 5 ∧
    570 ≤ 60 * ({ dow := 0, hour := 10, minute := 0 } : EtTimestamp).hour +
      ({ dow := 0, hour := 10, minute := 0 } : EtTimestamp).minute ∧
    60 * ({ dow := 0, hour := 10, minute := 0 } : EtTimestamp).hour +
      ({ dow := 0, hour := 10, minute := 0 } : EtTimestamp).minute ≤ 960 :=
  get_alpaca_bars_session_only fetchOneBar
    (by intro n t ht; simp only [fetchOneBar, List.mem_singleton] at ht; subst ht; decide)
    1 1 1 [] true [{ dow := 0, hour := 10, minute := 0 }] false (by rfl)
    { dow := 0, hour := 10, minute := 0 } (List.mem_singleton.mpr rfl)

/-- The truncating 3.7× multiplier never exceeds the 4× bound the retry
guard compares against. -/
theorem int37_le_four_mul (b : Nat) : int37 b ≤ b * 4 := by
  unfold int37
  omega

/-- One step of the under-fill retry when the source yields no rows: a
minute request with `bars_back = b ≥ 1` and size 1 recurses with
`bars_back = b * 10`, because the multiplier guard `int(3.7·b) ≤ 4·b`
holds at every call, inflated or not. -/
theorem get_alpaca_bars_empty_step (fuel b : Nat) (hb : 1 ≤ b) :
    get_alpaca_bars (fun _ => []) (fuel + 1) BarUnit.minute b 1 [] true false =
      get_alpaca_bars (fun _ => []) fuel BarUnit.minute (b * 10) 1 [] true false := by
  rw [get_alpaca_bars]
  rw [if_neg (by omega : ¬b = 0)]
  simp only [show (!false && isIntraday BarUnit.minute) = true from rfl,
    eq_self_iff_true, true_and, if_true, ne_eq, not_true_eq_false, if_false,
    inflateBarsBack, List.filter_nil, List.length_nil]
  rw [if_pos (by omega : (0 : Nat) < b), if_pos (int37_le_four_mul b)]

/-- With an always-empty source, the minute request diverges at every
fuel. -/
theorem get_alpaca_bars_empty_diverges (fuel : Nat) :
    ∀ b, 1 ≤ b →
      get_alpaca_bars (fun _ => []) fuel BarUnit.minute b 1 [] true false = .diverge := by
  induction fuel with
  | zero => intro b _; rfl
  | succ n ih =>
    intro b hb
    rw [get_alpaca_bars_empty_step n b hb]
    exact ih (b * 10) (by omega)

/-- C1: the under-fill retry is NOT bounded to one.  With a data source
that keeps yielding fewer in-session rows than requested, the concrete
minute request with `bars_back = 5` takes the retry branch on the first
call (5 → 50) and takes it AGAIN on the retry itself (50 → 500), because
the guard `adjusted_bars_back ≤ bars_back * 4` compares quantities of the
current call and always holds for minute and hour units; so the
return-with-warning branch is never reached and the recursion consumes any
amount of fuel. -/
theorem get_alpaca_bars_retry_unbounded :
    (∀ fuel, get_alpaca_bars (fun _ => []) (fuel + 2) BarUnit.minute 5 1 [] true false =
      get_alpaca_bars (fun _ => []) fuel BarUnit.minute 500 1 [] true false) ∧
    (∀ fuel, get_alpaca_bars (fun _ => []) fuel BarUnit.minute 5 1 [] true false =
      .diverge) := by
  constructor
  · intro fuel
    rw [get_alpaca_bars_empty_step (fuel + 1) 5 (by norm_num),
      get_alpaca_bars_empty_step fuel 50 (by norm_num)]
  · intro fuel
    exact get_alpaca_bars_empty_diverges fuel 5 (by norm_num)

/-!
Infrastructure for C3: the reachable-store invariant. Because the NOT NULL
constraint on `entry_price` makes `_create_order` reject every row whose
computed `entry_price` is null, every row that was ever persisted is a
limit order with a nonzero entry price.
-/

/-- A persistable row: limit order with a non-null, nonzero entry price.
Every row inserted by `_create_order` satisfies this. -/
def RowOk (o : Order) : Prop :=
  o.order_type = "limit" ∧ ∃ p : ℚ, o.entry_price = some p ∧ p ≠ 0

/-- Invariant of every store reachable through the client operations:
ids are below the fresh-id counter and pairwise distinct, and every row is
persistable. -/
def StoreWF (s : OrderStore) : Prop :=
  (∀ o ∈ s.orders, o.id < s.nextId) ∧
  (s.orders.map Order.id).Nodup ∧
  (∀ o ∈ s.orders, RowOk o)

/-- With pairwise-distinct ids, filtering on a member's id yields exactly
that member. -/
theorem filter_id_singleton (l : List Order) (ex : Order)
    (hnd : (l.map Order.id).Nodup) (hmem : ex ∈ l) :
    l.filter (fun o => o.id = ex.id) = [ex] := by
  induction l with
  | nil => cases hmem
  | cons a l ih =>
    rw [List.map_cons, List.nodup_cons] at hnd
    rcases List.mem_cons.mp hmem with heq | hmem'
    · rw [heq, List.filter_cons_of_pos (by simp)]
      have hnil : l.filter (fun o => o.id = a.id) = [] := by
        refine List.filter_eq_nil_iff.mpr ?_
        intro o ho hpo
        have hid : o.id = a.id := by simpa using hpo
        exact hnd.1 (hid ▸ List.mem_map_of_mem Order.id ho)
      rw [hnil]
    · have hne : ¬a.id = ex.id := by
        intro heq
        exact hnd.1 (heq ▸ List.mem_map_of_mem Order.id hmem')
      rw [List.filter_cons_of_neg (by simpa using hne)]
      exact ih hnd.2 hmem'

/-- Looking up a member's id in a well-formed table returns that member. -/
theorem getOrderById_of_mem (s : OrderStore) (ex : Order)
    (hnd : (s.orders.map Order.id).Nodup) (hmem : ex ∈ s.orders) :
    getOrderById s ex.id = .ok ex := by
  unfold getOrderById scalarOneOrNone
  rw [filter_id_singleton s.orders ex hnd hmem]

/-- The in-place cancel of the replaced row keeps every id unchanged. -/
theorem cancel_map_ids (l : List Order) (oid now : Nat) :
    (l.map (fun o =>
      if o.id = oid then { o with status := "canceled", updated_timestamp := now } else o)).map
        Order.id = l.map Order.id := by
  rw [List.map_map]
  refine List.map_congr_left ?_
  intro o _
  by_cases h : o.id = oid <;> simp [h]

/-- Characterization of a successful `replace_order_by_id` on a
well-formed store: the result appends the freshly-created replacement row
(carrying the fresh id) to the table in which the original row, and only
it, has been marked canceled; the replacement is a live persistable limit
row, and the resulting store is well-formed again. -/
theorem replace_ok_char (s : OrderStore) (ex : Order) (nd : ReplaceOrderRequest) (now : Nat)
    (hwf : StoreWF s) (hmem : ex ∈ s.orders) (hstat : ex.status ≠ "canceled")
    (hnd : nd.limit_price ≠ some 0) :
    ∃ resp : ModifyOrderResponse,
      replace_order_by_id s ex.id nd now =
        (.ok resp,
         { orders := s.orders.map (fun o =>
             if o.id = ex.id then { o with status := "canceled", updated_timestamp := now } else o)
             ++ [createOrderRow (prepareNewOrderRequest ex nd) s.nextId now],
           nextId := s.nextId + 1 }) ∧
      resp.id = s.nextId ∧
      (createOrderRow (prepareNewOrderRequest ex nd) s.nextId now).id = s.nextId ∧
      (createOrderRow (prepareNewOrderRequest ex nd) s.nextId now).status = "new" ∧
      RowOk (createOrderRow (prepareNewOrderRequest ex nd) s.nextId now) ∧
      StoreWF
        { orders := s.orders.map (fun o =>
            if o.id = ex.id then { o with status := "canceled", updated_timestamp := now } else o)
            ++ [createOrderRow (prepareNewOrderRequest ex nd) s.nextId now],
          nextId := s.nextId + 1 } := by
  obtain ⟨hids, hnodup, hrows⟩ := hwf
  obtain ⟨htype, q, hq, hq0⟩ := hrows ex hmem
  -- the limit price of the synthesized request is non-null and nonzero
  have hlp : ∃ p : ℚ, (prepareNewOrderRequest ex nd).limit_price = some p ∧ p ≠ 0 := by
    unfold prepareNewOrderRequest
    dsimp only
    cases hcase : nd.limit_price with
    | none => exact ⟨q, hq, hq0⟩
    | some p =>
      refine ⟨p, rfl, ?_⟩
      intro h0
      exact hnd (by rw [hcase, h0])
  obtain ⟨p, hp, hp0⟩ := hlp
  have hreqtype : (prepareNewOrderRequest ex nd).type = "limit" := htype
  have hentry : (createOrderRow (prepareNewOrderRequest ex nd) s.nextId now).entry_price = some p := by
    unfold createOrderRow
    dsimp only
    rw [if_pos ⟨hreqtype, by rw [hp]; exact decide_eq_true_iff.mpr hp0⟩, hp]
  have hrowok : RowOk (createOrderRow (prepareNewOrderRequest ex nd) s.nextId now) :=
    ⟨hreqtype, p, hentry, hp0⟩
  refine
    ⟨{ status := (createOrderRow (prepareNewOrderRequest ex nd) s.nextId now).status
       id := (createOrderRow (prepareNewOrderRequest ex nd) s.nextId now).id
       qty := some (createOrderRow (prepareNewOrderRequest ex nd) s.nextId now).quantity
       limit_price :=
         if optTruthy (createOrderRow (prepareNewOrderRequest ex nd) s.nextId now).entry_price then
           (createOrderRow (prepareNewOrderRequest ex nd) s.nextId now).entry_price
         else none
       stop_price :=
         if optTruthy (createOrderRow (prepareNewOrderRequest ex nd) s.nextId now).stop_loss_price then
           (createOrderRow (prepareNewOrderRequest ex nd) s.nextId now).stop_loss_price
         else none },
     ?_, rfl, rfl, rfl, hrowok, ?_, ?_, ?_⟩
  · unfold replace_order_by_id
    rw [getOrderById_of_mem s ex hnodup hmem]
    dsimp only
    rw [if_neg hstat, if_neg (by rw [hentry]; exact fun h => Option.noConfusion h)]
  · -- ids stay below the bumped counter
    intro o ho
    rcases List.mem_append.mp ho with hin | hin
    · obtain ⟨o0, ho0, rfl⟩ := List.mem_map.mp hin
      have : o0.id < s.nextId := hids o0 ho0
      by_cases h : o0.id = ex.id <;> simp [h] <;> omega
    · rw [List.mem_singleton.mp hin]
      exact Nat.lt_succ_self s.nextId
  · -- ids stay pairwise distinct
    rw [List.map_append, cancel_map_ids]
    refine List.nodup_append.mpr ⟨hnodup, List.nodup_singleton _, ?_⟩
    intro a ha hb
    rw [List.map_singleton, List.mem_singleton] at hb
    obtain ⟨o0, ho0, rfl⟩ := List.mem_map.mp ha
    exact absurd (hb ▸ hids o0 ho0) (Nat.lt_irrefl _)
  · -- every row of the result is persistable
    intro o ho
    rcases List.mem_append.mp ho with hin | hin
    · obtain ⟨o0, ho0, rfl⟩ := List.mem_map.mp hin
      obtain ⟨ht0, p0, hp0', hp00⟩ := hrows o0 ho0
      by_cases h : o0.id = ex.id
      · rw [if_pos h]
        exact ⟨ht0, p0, hp0', hp00⟩
      · rw [if_neg h]
        exact ⟨ht0, p0, hp0', hp00⟩
    · rw [List.mem_singleton.mp hin]
      exact hrowok

/-- C3: on a well-formed store, replacing an existing non-canceled order
creates a brand-new row carrying a fresh id (distinct from every id
already in the table, in particular from the original's), and the original
row is marked canceled in place rather than mutated into the replacement;
replacing the replacement in turn yields two rows beyond the original,
and the final live row's id differs from both prior ids.  The hypotheses
`hnd`/`hnd2` exclude replacement requests carrying a literal zero limit
price, which Python truthiness would turn into a null `entry_price` and
the NOT NULL constraint would reject. -/
theorem replace_creates_new_row
    (s : OrderStore) (ex : Order) (nd nd2 : ReplaceOrderRequest) (now now2 : Nat)
    (hwf : StoreWF s) (hmem : ex ∈ s.orders) (hstat : ex.status ≠ "canceled")
    (hnd : nd.limit_price ≠ some 0) (hnd2 : nd2.limit_price ≠ some 0) :
    ∃ (resp1 : ModifyOrderResponse) (s1 : OrderStore),
      replace_order_by_id s ex.id nd now = (.ok resp1, s1) ∧
      resp1.id = s.nextId ∧
      resp1.id ≠ ex.id ∧
      (∀ o ∈ s.orders, o.id ≠ resp1.id) ∧
      s1.orders.length = s.orders.length + 1 ∧
      { ex with status := "canceled", updated_timestamp := now } ∈ s1.orders ∧
      (∃ row ∈ s1.orders, row.id = resp1.id ∧ row.status = "new") ∧
      ∃ (resp2 : ModifyOrderResponse) (s2 : OrderStore),
        replace_order_by_id s1 resp1.id nd2 now2 = (.ok resp2, s2) ∧
        s2.orders.length = s.orders.length + 2 ∧
        resp2.id ≠ ex.id ∧
        resp2.id ≠ resp1.id ∧
        ∃ live ∈ s2.orders, live.id = resp2.id ∧ live.status = "new" := by
  obtain ⟨resp1, heq1, hid1, hrowid1, hrowstat1, hrowok1, hwf1⟩ :=
    replace_ok_char s ex nd now hwf hmem hstat hnd
  have hexlt : ex.id < s.nextId := hwf.1 ex hmem
  set row1 := createOrderRow (prepareNewOrderRequest ex nd) s.nextId now with hrow1
  set s1 : OrderStore :=
    { orders := s.orders.map (fun o =>
        if o.id = ex.id then { o with status := "canceled", updated_timestamp := now } else o)
        ++ [row1],
      nextId := s.nextId + 1 } with hs1
  have hrow1mem : row1 ∈ s1.orders := List.mem_append_right _ (List.mem_singleton.mpr rfl)
  obtain ⟨resp2, heq2, hid2, hrowid2, hrowstat2, hrowok2, hwf2⟩ :=
    replace_ok_char s1 row1 nd2 now2 hwf1 hrow1mem
      (by rw [hrowstat1]; decide) hnd2
  refine ⟨resp1, s1, heq1, hid1, ?_, ?_, ?_, ?_, ?_, ?_⟩
  · rw [hid1]
    omega
  · intro o ho
    rw [hid1]
    have := hwf.1 o ho
    omega
  · simp [hs1]
  · refine List.mem_append_left _ ?_
    have : (fun o => if o.id = ex.id then
        { o with status := "canceled", updated_timestamp := now } else o) ex =
        { ex with status := "canceled", updated_timestamp := now } := by
      dsimp only
      rw [if_pos rfl]
    exact this ▸ List.mem_map_of_mem _ hmem
  · exact ⟨row1, hrow1mem, by rw [hrowid1, hid1], hrowstat1⟩
  · refine ⟨resp2,
      { orders := s1.orders.map (fun o =>
          if o.id = row1.id then { o with status := "canceled", updated_timestamp := now2 } else o)
          ++ [createOrderRow (prepareNewOrderRequest row1 nd2) s1.nextId now2],
        nextId := s1.nextId + 1 }, ?_, ?_, ?_, ?_, ?_⟩
    · rw [hid1, ← hrowid1]
      exact heq2
    · simp [hs1]
    · rw [hid2]
      simp only [hs1]
      omega
    · rw [hid2, hid1]
      simp only [hs1]
      omega
    · refine ⟨createOrderRow (prepareNewOrderRequest row1 nd2) s1.nextId now2,
        List.mem_append_right _ (List.mem_singleton.mpr rfl), ?_, hrowstat2⟩
      rw [hrowid2, hid2]

/-- A replacement request raising the limit price to 6. -/
def ndA : ReplaceOrderRequest :=
  { qty := none, time_in_force := none, limit_price := some 6, stop_price := none }

/-- A replacement request changing only the quantity. -/
def ndB : ReplaceOrderRequest :=
  { qty := some 2, time_in_force := none, limit_price := none, stop_price := none }

/-- Witness for C3: replace the sole order of `stOne`, then replace the
replacement. -/
theorem replace_creates_new_row_witness :
    ∃ (resp1 : ModifyOrderResponse) (s1 : OrderStore),
      replace_order_by_id stOne ordLimit.id ndA 9 = (.ok resp1, s1) ∧
      resp1.id = stOne.nextId ∧
      resp1.id ≠ ordLimit.id ∧
      (∀ o ∈ stOne.orders, o.id ≠ resp1.id) ∧
      s1.orders.length = stOne.orders.length + 1 ∧
      { ordLimit with status := "canceled", updated_timestamp := 9 } ∈ s1.orders ∧
      (∃ row ∈ s1.orders, row.id = resp1.id ∧ row.status = "new") ∧
      ∃ (resp2 : ModifyOrderResponse) (s2 : OrderStore),
        replace_order_by_id s1 resp1.id ndB 10 = (.ok resp2, s2) ∧
        s2.orders.length = stOne.orders.length + 2 ∧
        resp2.id ≠ ordLimit.id ∧
        resp2.id ≠ resp1.id ∧
        ∃ live ∈ s2.orders, live.id = resp2.id ∧ live.status = "new" :=
  replace_creates_new_row stOne ordLimit ndA ndB 9 10
    ⟨by decide,
     by decide,
     by
      intro o ho
      rw [show stOne.orders = [ordLimit] from rfl, List.mem_singleton] at ho
      subst ho
      exact ⟨rfl, 5, rfl, by norm_num⟩⟩
    (List.mem_singleton.mpr rfl)
    (by decide)
    (by decide)
    (by decide)

end BrokersMcp
